import Mathlib

/-!
Shallow embedding of `Microgrid_simulation.py` (RazorSDU/Microgrid_simulation).

Python float arithmetic is modelled exactly over an arbitrary linear ordered
field `α`; every operation in the source is plain `+`, `-`, `*`, `/`, `min`,
`max` and comparisons, so the model mirrors the source expression for
expression.  Instantiating `α := ℚ` gives an executable model used for
concrete evaluations; `α := ℝ` is used where the source takes a square root
(`SystemParameters.charge_eff`).  Each Python method that mutates `self`
becomes a function returning the updated record together with the method's
return value.
-/

namespace Microgrid

variable {α : Type} [LinearOrderedField α]

/-- The `HeatPumpType` enum: selects which COP column the simulator reads. -/
inductive HeatPumpType where
  | LV : HeatPumpType   -- Air-to-water
  | JH : HeatPumpType   -- Horizontal ground loop
  | JV : HeatPumpType   -- Vertical borehole
  deriving DecidableEq, Repr

/-- `ComponentLimits`: rated power of the devices (kW).
Source defaults: 20, 20, 10, 10. -/
structure ComponentLimits (α : Type) where
  p_bat_charge : α
  p_bat_discharge : α
  p_electrolyser : α
  p_fuel_cell : α
  deriving DecidableEq, Repr

/-- The numeric fields of the `SystemParameters` dataclass (file and column
names are I/O concerns, outside the embedded core).  `h2_init_kwh` is set by
`__post_init__`, see `mkSystemParameters`. -/
structure SystemParameters (α : Type) where
  eta_inv : α
  eta_bat_roundtrip : α
  eta_electrolyser : α
  eta_fuel_cell : α
  battery_capacity_kwh : α
  h2_capacity_kwh : α
  soc_bat_init : α
  h2_init_kwh : α
  heat_pump_type : HeatPumpType
  limits : ComponentLimits α
  deriving DecidableEq, Repr

/-- Constructing a `SystemParameters`: `__post_init__` is the only
construction-time logic in the source.  It defaults `h2_init_kwh` to half
the tank capacity when the caller passed `None`; every other field is stored
exactly as given, with no validation and no clamping. -/
def mkSystemParameters (eta_inv eta_bat_roundtrip eta_electrolyser eta_fuel_cell
    battery_capacity_kwh h2_capacity_kwh soc_bat_init : α)
    (h2_init_kwh : Option α) (heat_pump_type : HeatPumpType)
    (limits : ComponentLimits α) : SystemParameters α :=
  { eta_inv := eta_inv
    eta_bat_roundtrip := eta_bat_roundtrip
    eta_electrolyser := eta_electrolyser
    eta_fuel_cell := eta_fuel_cell
    battery_capacity_kwh := battery_capacity_kwh
    h2_capacity_kwh := h2_capacity_kwh
    soc_bat_init := soc_bat_init
    h2_init_kwh :=
      match h2_init_kwh with
      | none => (1 / 2) * h2_capacity_kwh
      | some v => v
    heat_pump_type := heat_pump_type
    limits := limits }

/-- Modelled from the spec: the configuration-validity predicate of the
spec's error taxonomy ("all efficiencies ∈ (0,1]; all capacities and limits
≥ 0; initial states ∈ [0, capacity]").  The source contains no such check;
this definition exists only to compare the spec's claimed construction-time
validation against the source constructor. -/
def SystemParameters.specValid (p : SystemParameters α) : Prop :=
  (0 < p.eta_inv ∧ p.eta_inv ≤ 1) ∧
  (0 < p.eta_bat_roundtrip ∧ p.eta_bat_roundtrip ≤ 1) ∧
  (0 < p.eta_electrolyser ∧ p.eta_electrolyser ≤ 1) ∧
  (0 < p.eta_fuel_cell ∧ p.eta_fuel_cell ≤ 1) ∧
  0 ≤ p.battery_capacity_kwh ∧ 0 ≤ p.h2_capacity_kwh ∧
  0 ≤ p.limits.p_bat_charge ∧ 0 ≤ p.limits.p_bat_discharge ∧
  0 ≤ p.limits.p_electrolyser ∧ 0 ≤ p.limits.p_fuel_cell ∧
  (0 ≤ p.soc_bat_init ∧ p.soc_bat_init ≤ 1) ∧
  (0 ≤ p.h2_init_kwh ∧ p.h2_init_kwh ≤ p.h2_capacity_kwh)

instance (p : SystemParameters α) : Decidable p.specValid := by
  unfold SystemParameters.specValid; infer_instance

/-- `SystemParameters.charge_eff`: √(round-trip efficiency), the symmetric
half efficiency assumed by the source (`np.sqrt`), hence valued in ℝ. -/
noncomputable def SystemParameters.charge_eff (p : SystemParameters ℝ) : ℝ :=
  Real.sqrt p.eta_bat_roundtrip

/-- `SystemParameters.discharge_eff`: also √(round-trip efficiency). -/
noncomputable def SystemParameters.discharge_eff (p : SystemParameters ℝ) : ℝ :=
  Real.sqrt p.eta_bat_roundtrip

/-- The `Battery` object: `cap`, `soc` in kWh, the two half efficiencies and
the two power limits, copied from the configuration at construction. -/
structure Battery (α : Type) where
  cap : α
  soc : α
  eta_c : α
  eta_d : α
  p_charge_max : α
  p_discharge_max : α
  deriving DecidableEq, Repr

/-- `Battery.__init__`(params): copies capacity, initial SOC
(`soc_bat_init · cap`), the two derived half efficiencies and the limits. -/
noncomputable def Battery.fromParams (p : SystemParameters ℝ) : Battery ℝ :=
  { cap := p.battery_capacity_kwh
    soc := p.soc_bat_init * p.battery_capacity_kwh
    eta_c := p.charge_eff
    eta_d := p.discharge_eff
    p_charge_max := p.limits.p_bat_charge
    p_discharge_max := p.limits.p_bat_discharge }

/-- `Battery.charge`: clamp the request to `p_charge_max`, convert to energy
over `dt_h`, lose `eta_c` on the way in, clamp to the remaining headroom,
add to `soc`, and return `e_actual / dt_h` (the source comment calls this
"actual power absorbed (kW at AC side)"). -/
def Battery.charge (b : Battery α) (p_requested_kw : α) (dt_h : α := 1) :
    Battery α × α :=
  let p := min p_requested_kw b.p_charge_max
  let e_in := p * dt_h * b.eta_c
  let space_left := b.cap - b.soc
  let e_actual := min e_in space_left
  ({ b with soc := b.soc + e_actual }, e_actual / dt_h)

/-- `Battery.discharge`: clamp the request to `p_discharge_max`, compute the
stored energy needed to deliver it after the `eta_d` loss, clamp to the
available `soc`, subtract, and return the AC power actually delivered. -/
def Battery.discharge (b : Battery α) (p_requested_kw : α) (dt_h : α := 1) :
    Battery α × α :=
  let p := min p_requested_kw b.p_discharge_max
  let e_out_request := p * dt_h / b.eta_d
  let e_available := min e_out_request b.soc
  ({ b with soc := b.soc - e_available }, e_available * b.eta_d / dt_h)

/-- The `HydrogenStore` object: tank capacity and level (kWh-equivalent),
the two conversion efficiencies and the two power limits. -/
structure HydrogenStore (α : Type) where
  cap : α
  h2 : α
  eta_elec : α
  eta_fc : α
  p_elec_max : α
  p_fc_max : α
  deriving DecidableEq, Repr

/-- `HydrogenStore.electrolyse`: clamp to `p_elec_max`, convert AC energy to
chemical energy at `eta_elec`, clamp to tank headroom, add to the level, and
return `e_actual / (eta_elec * dt_h)` — the AC power actually consumed,
obtained by reversing the efficiency conversion over the stored increment. -/
def HydrogenStore.electrolyse (h : HydrogenStore α) (p_kw : α) (dt_h : α := 1) :
    HydrogenStore α × α :=
  let p := min p_kw h.p_elec_max
  let e_h2 := p * dt_h * h.eta_elec
  let space_left := h.cap - h.h2
  let e_actual := min e_h2 space_left
  ({ h with h2 := h.h2 + e_actual }, e_actual / (h.eta_elec * dt_h))

/-- `HydrogenStore.fuel_cell`: clamp to `p_fc_max`, compute the chemical
energy needed at `eta_fc`, clamp to the available level, subtract, and
return the delivered AC power together with the waste heat
`(e_available - p_ac * dt_h) / dt_h`. -/
def HydrogenStore.fuel_cell (h : HydrogenStore α) (p_kw : α) (dt_h : α := 1) :
    HydrogenStore α × α × α :=
  let p := min p_kw h.p_fc_max
  let e_h2_needed := p * dt_h / h.eta_fc
  let e_available := min e_h2_needed h.h2
  let p_ac := e_available * h.eta_fc / dt_h
  let p_heat := (e_available - p_ac * dt_h) / dt_h
  ({ h with h2 := h.h2 - e_available }, p_ac, p_heat)

/-- One hourly input row: PV production, plug load, space heat, domestic hot
water, and the three COP columns. -/
structure Row (α : Type) where
  pv : α
  plug : α
  q_space : α
  q_dhw : α
  cop_lv : α
  cop_jh : α
  cop_jv : α
  deriving DecidableEq, Repr

/-- `row[cop_col]`: the COP column selected by the configured
`heat_pump_type`. -/
def Row.cop (r : Row α) (t : HeatPumpType) : α :=
  match t with
  | .LV => r.cop_lv
  | .JH => r.cop_jh
  | .JV => r.cop_jv

/-- One hourly log record: the fifteen columns appended by
`MicrogridSimulator._log` each hour, in source order. -/
structure LogRow (α : Type) where
  pv_ac : α
  load : α
  net_before : α
  p_bat_charge : α
  p_bat_discharge : α
  soc_bat : α
  p_elec : α
  p_fc : α
  h2_store : α
  p_grid_export : α
  p_grid_import : α
  heat_pump_heat : α
  heat_from_fc : α
  heat_total_demand : α
  hp_electricity : α
  deriving DecidableEq, Repr

/-- The mutable state the simulator carries from hour to hour: its one
`Battery` and one `HydrogenStore`. -/
structure SimState (α : Type) where
  battery : Battery α
  h2 : HydrogenStore α
  deriving DecidableEq, Repr

/-- `EPS = 1e-6` kW: the tolerance used to zero reported grid flows. -/
def EPS : α := 1 / 1000000

/-- The surplus branch of the loop body (`net_kw ≥ 0`): battery charge →
electrolyser (if more than 1e-6 kW is left) → grid export (if more than
`EPS` is left). -/
def surplusDispatch (st : SimState α)
    (pv_ac load_kw net_kw heat_req hp_el_kw : α) : SimState α × LogRow α :=
  let bc := st.battery.charge net_kw
  let p_bat_ch := bc.2
  let net_after_bat := net_kw - p_bat_ch
  let he :=
    if net_after_bat > 1 / 1000000 then st.h2.electrolyse net_after_bat
    else (st.h2, 0)
  let p_elec := he.2
  let net_after := net_after_bat - p_elec
  let p_grid_exp := if net_after > EPS then net_after else 0
  ({ battery := bc.1, h2 := he.1 },
   { pv_ac := pv_ac
     load := load_kw
     net_before := net_kw
     p_bat_charge := p_bat_ch
     p_bat_discharge := 0
     soc_bat := bc.1.soc
     p_elec := p_elec
     p_fc := 0
     h2_store := he.1.h2
     p_grid_export := p_grid_exp
     p_grid_import := 0
     heat_pump_heat := heat_req
     heat_from_fc := 0 * 1
     heat_total_demand := heat_req
     hp_electricity := hp_el_kw })

/-- The deficit branch of the loop body (`net_kw < 0`): battery discharge →
fuel cell (if more than `EPS` is missing and the tank holds more than
`EPS`) → grid import (if more than `EPS` is still missing). -/
def deficitDispatch (st : SimState α)
    (pv_ac load_kw net_kw heat_req hp_el_kw : α) : SimState α × LogRow α :=
  let deficit_kw := -net_kw
  let bd := st.battery.discharge deficit_kw
  let p_bat_disch := bd.2
  let deficit_after_bat := deficit_kw - p_bat_disch
  let hf :=
    if deficit_after_bat > EPS ∧ st.h2.h2 > EPS then
      st.h2.fuel_cell deficit_after_bat
    else (st.h2, 0, 0)
  let p_fc_kw := hf.2.1
  let heat_from_fc_kw := hf.2.2
  let deficit_final := deficit_after_bat - p_fc_kw
  let p_grid_imp := if deficit_final > EPS then deficit_final else 0
  ({ battery := bd.1, h2 := hf.1 },
   { pv_ac := pv_ac
     load := load_kw
     net_before := net_kw
     p_bat_charge := 0
     p_bat_discharge := p_bat_disch
     soc_bat := bd.1.soc
     p_elec := 0
     p_fc := p_fc_kw
     h2_store := hf.1.h2
     p_grid_export := 0
     p_grid_import := p_grid_imp
     heat_pump_heat := heat_req
     heat_from_fc := heat_from_fc_kw * 1
     heat_total_demand := heat_req
     hp_electricity := hp_el_kw })

/-- One iteration of the `MicrogridSimulator.run` loop body (`dt = 1.0`):
computes demands and the net balance, dispatches through the surplus or the
deficit branch, and produces the updated state together with the hour's log
record. -/
def step (eta_inv : α) (hpType : HeatPumpType) (st : SimState α) (row : Row α) :
    SimState α × LogRow α :=
  let pv_ac := row.pv * eta_inv
  let q_space := row.q_space
  let q_dhw := row.q_dhw
  let heat_req := q_space + q_dhw
  let cop_hp := max (row.cop hpType) (1 / 10)
  let hp_el_kwh := heat_req / cop_hp
  let hp_el_kw := hp_el_kwh / 1
  let plug_kw := row.plug
  let load_kw := plug_kw + hp_el_kw
  let net_kw := pv_ac - load_kw
  if 0 ≤ net_kw then
    surplusDispatch st pv_ac load_kw net_kw heat_req hp_el_kw
  else
    deficitDispatch st pv_ac load_kw net_kw heat_req hp_el_kw

/-- `MicrogridSimulator.run`: fold `step` over the input rows in order,
collecting one log record per row. -/
def run (eta_inv : α) (hpType : HeatPumpType) (st : SimState α) :
    List (Row α) → SimState α × List (LogRow α)
  | [] => (st, [])
  | r :: rs =>
    let sl := step eta_inv hpType st r
    let rest := run eta_inv hpType sl.1 rs
    (rest.1, sl.2 :: rest.2)

/-- The annual grid-balance KPI computed after the loop:
`Σ grid_export − Σ grid_import`. -/
def annualBalance (logs : List (LogRow α)) : α :=
  (logs.map LogRow.p_grid_export).sum - (logs.map LogRow.p_grid_import).sum

/-- The per-hour AC energy-balance residual of a log record:
sources (PV, import, battery discharge, fuel cell) minus
sinks (load, export, battery charge, electrolyser), at `dt = 1`. -/
def energyBalance (lg : LogRow α) : α :=
  lg.pv_ac + lg.p_grid_import + lg.p_bat_discharge + lg.p_fc -
    (lg.load + lg.p_grid_export + lg.p_bat_charge + lg.p_elec)

/-- The parameter-range hypotheses on a battery's immutable fields used by
the dispatch-level theorems: efficiencies from the spec's (0,1] contract
and non-negative power limits. -/
def Battery.paramsOK (b : Battery α) : Prop :=
  0 ≤ b.eta_c ∧ b.eta_c ≤ 1 ∧ 0 < b.eta_d ∧
    0 ≤ b.p_charge_max ∧ 0 ≤ b.p_discharge_max

/-- The parameter-range hypotheses on a hydrogen store's immutable fields. -/
def HydrogenStore.paramsOK (h : HydrogenStore α) : Prop :=
  0 < h.eta_elec ∧ 0 < h.eta_fc ∧ 0 ≤ h.p_elec_max ∧ 0 ≤ h.p_fc_max

/-! ### Device-level lemmas -/

theorem Battery.charge_soc (b : Battery α) (p dt : α) :
    (b.charge p dt).1.soc
      = b.soc + min (min p b.p_charge_max * dt * b.eta_c) (b.cap - b.soc) := rfl

theorem Battery.charge_ret (b : Battery α) (p dt : α) :
    (b.charge p dt).2
      = min (min p b.p_charge_max * dt * b.eta_c) (b.cap - b.soc) / dt := rfl

theorem Battery.discharge_soc (b : Battery α) (p dt : α) :
    (b.discharge p dt).1.soc
      = b.soc - min (min p b.p_discharge_max * dt / b.eta_d) b.soc := rfl

theorem Battery.discharge_ret (b : Battery α) (p dt : α) :
    (b.discharge p dt).2
      = min (min p b.p_discharge_max * dt / b.eta_d) b.soc * b.eta_d / dt := rfl

theorem HydrogenStore.electrolyse_h2 (h : HydrogenStore α) (p dt : α) :
    (h.electrolyse p dt).1.h2
      = h.h2 + min (min p h.p_elec_max * dt * h.eta_elec) (h.cap - h.h2) := rfl

theorem HydrogenStore.electrolyse_ret (h : HydrogenStore α) (p dt : α) :
    (h.electrolyse p dt).2
      = min (min p h.p_elec_max * dt * h.eta_elec) (h.cap - h.h2)
          / (h.eta_elec * dt) := rfl

theorem HydrogenStore.fuel_cell_h2 (h : HydrogenStore α) (p dt : α) :
    (h.fuel_cell p dt).1.h2
      = h.h2 - min (min p h.p_fc_max * dt / h.eta_fc) h.h2 := rfl

theorem HydrogenStore.fuel_cell_ac (h : HydrogenStore α) (p dt : α) :
    (h.fuel_cell p dt).2.1
      = min (min p h.p_fc_max * dt / h.eta_fc) h.h2 * h.eta_fc / dt := rfl

theorem HydrogenStore.fuel_cell_heat (h : HydrogenStore α) (p dt : α) :
    (h.fuel_cell p dt).2.2
      = (min (min p h.p_fc_max * dt / h.eta_fc) h.h2
          - min (min p h.p_fc_max * dt / h.eta_fc) h.h2 * h.eta_fc / dt * dt)
          / dt := rfl

/-- Charging and discharging touch only `soc`: all other fields survive. -/
theorem Battery.charge_fields (b : Battery α) (p dt : α) :
    (b.charge p dt).1.cap = b.cap ∧ (b.charge p dt).1.eta_c = b.eta_c ∧
      (b.charge p dt).1.eta_d = b.eta_d ∧
      (b.charge p dt).1.p_charge_max = b.p_charge_max ∧
      (b.charge p dt).1.p_discharge_max = b.p_discharge_max :=
  ⟨rfl, rfl, rfl, rfl, rfl⟩

theorem Battery.discharge_fields (b : Battery α) (p dt : α) :
    (b.discharge p dt).1.cap = b.cap ∧ (b.discharge p dt).1.eta_c = b.eta_c ∧
      (b.discharge p dt).1.eta_d = b.eta_d ∧
      (b.discharge p dt).1.p_charge_max = b.p_charge_max ∧
      (b.discharge p dt).1.p_discharge_max = b.p_discharge_max :=
  ⟨rfl, rfl, rfl, rfl, rfl⟩

theorem HydrogenStore.electrolyse_fields (h : HydrogenStore α) (p dt : α) :
    (h.electrolyse p dt).1.cap = h.cap ∧
      (h.electrolyse p dt).1.eta_elec = h.eta_elec ∧
      (h.electrolyse p dt).1.eta_fc = h.eta_fc ∧
      (h.electrolyse p dt).1.p_elec_max = h.p_elec_max ∧
      (h.electrolyse p dt).1.p_fc_max = h.p_fc_max :=
  ⟨rfl, rfl, rfl, rfl, rfl⟩

theorem HydrogenStore.fuel_cell_fields (h : HydrogenStore α) (p dt : α) :
    (h.fuel_cell p dt).1.cap = h.cap ∧
      (h.fuel_cell p dt).1.eta_elec = h.eta_elec ∧
      (h.fuel_cell p dt).1.eta_fc = h.eta_fc ∧
      (h.fuel_cell p dt).1.p_elec_max = h.p_elec_max ∧
      (h.fuel_cell p dt).1.p_fc_max = h.p_fc_max :=
  ⟨rfl, rfl, rfl, rfl, rfl⟩

/-- The charge return never exceeds the request (for an in-range charge
efficiency and a non-negative request): the AC side can only under-absorb. -/
theorem Battery.charge_ret_le_req (b : Battery α) (p dt : α)
    (h0 : 0 ≤ b.eta_c) (h1 : b.eta_c ≤ 1) (hp : 0 ≤ p) (hdt : 0 < dt) :
    (b.charge p dt).2 ≤ p := by
  rw [Battery.charge_ret, div_le_iff₀ hdt]
  have hm : min p b.p_charge_max ≤ p := min_le_left _ _
  have t1 : 0 ≤ (p - min p b.p_charge_max) * b.eta_c * dt :=
    mul_nonneg (mul_nonneg (by linarith) h0) hdt.le
  have t2 : 0 ≤ p * (1 - b.eta_c) * dt :=
    mul_nonneg (mul_nonneg hp (by linarith)) hdt.le
  have h3 : min (min p b.p_charge_max * dt * b.eta_c) (b.cap - b.soc)
      ≤ min p b.p_charge_max * dt * b.eta_c := min_le_left _ _
  nlinarith [h3]

/-- The discharge return never exceeds the clamped request. -/
theorem Battery.discharge_ret_le (b : Battery α) (p dt : α)
    (hd : 0 < b.eta_d) (hdt : 0 < dt) :
    (b.discharge p dt).2 ≤ min p b.p_discharge_max := by
  rw [Battery.discharge_ret, div_le_iff₀ hdt]
  have h1 : min (min p b.p_discharge_max * dt / b.eta_d) b.soc
      ≤ min p b.p_discharge_max * dt / b.eta_d := min_le_left _ _
  have h2 := mul_le_mul_of_nonneg_right h1 hd.le
  rwa [div_mul_cancel₀ _ hd.ne'] at h2

/-- The electrolyser return never exceeds the clamped request. -/
theorem HydrogenStore.electrolyse_ret_le (h : HydrogenStore α) (p dt : α)
    (he : 0 < h.eta_elec) (hdt : 0 < dt) :
    (h.electrolyse p dt).2 ≤ min p h.p_elec_max := by
  rw [HydrogenStore.electrolyse_ret,
    div_le_iff₀ (by positivity : (0 : α) < h.eta_elec * dt)]
  calc min (min p h.p_elec_max * dt * h.eta_elec) (h.cap - h.h2)
      ≤ min p h.p_elec_max * dt * h.eta_elec := min_le_left _ _
    _ = min p h.p_elec_max * (h.eta_elec * dt) := by ring

/-- The fuel-cell AC output never exceeds the clamped request. -/
theorem HydrogenStore.fuel_cell_ac_le (h : HydrogenStore α) (p dt : α)
    (hf : 0 < h.eta_fc) (hdt : 0 < dt) :
    (h.fuel_cell p dt).2.1 ≤ min p h.p_fc_max := by
  rw [HydrogenStore.fuel_cell_ac, div_le_iff₀ hdt]
  have h1 : min (min p h.p_fc_max * dt / h.eta_fc) h.h2
      ≤ min p h.p_fc_max * dt / h.eta_fc := min_le_left _ _
  have h2 := mul_le_mul_of_nonneg_right h1 hf.le
  rwa [div_mul_cancel₀ _ hf.ne'] at h2

/-- `charge` never overfills: the stored increase is clamped to headroom. -/
theorem Battery.charge_soc_le_cap (b : Battery α) (p dt : α) :
    (b.charge p dt).1.soc ≤ b.cap := by
  rw [Battery.charge_soc]
  have := min_le_right (min p b.p_charge_max * dt * b.eta_c) (b.cap - b.soc)
  linarith

/-- `charge` keeps the SOC non-negative for an in-contract call. -/
theorem Battery.charge_soc_nonneg (b : Battery α) (p dt : α)
    (hc0 : 0 ≤ b.eta_c) (hpc : 0 ≤ b.p_charge_max) (hp : 0 ≤ p)
    (hdt : 0 ≤ dt) (hs0 : 0 ≤ b.soc) (hs1 : b.soc ≤ b.cap) :
    0 ≤ (b.charge p dt).1.soc := by
  rw [Battery.charge_soc]
  have h1 : 0 ≤ min p b.p_charge_max * dt * b.eta_c :=
    mul_nonneg (mul_nonneg (le_min hp hpc) hdt) hc0
  have h2 : (0 : α) ≤ min (min p b.p_charge_max * dt * b.eta_c) (b.cap - b.soc) :=
    le_min h1 (by linarith)
  linarith

/-- `discharge` never drains below zero: the draw is clamped to the SOC. -/
theorem Battery.discharge_soc_nonneg (b : Battery α) (p dt : α) :
    0 ≤ (b.discharge p dt).1.soc := by
  rw [Battery.discharge_soc]
  have := min_le_right (min p b.p_discharge_max * dt / b.eta_d) b.soc
  linarith

/-- `discharge` keeps the SOC below capacity for an in-contract call. -/
theorem Battery.discharge_soc_le_cap (b : Battery α) (p dt : α)
    (hd0 : 0 < b.eta_d) (hpd : 0 ≤ b.p_discharge_max) (hp : 0 ≤ p)
    (hdt : 0 ≤ dt) (hs0 : 0 ≤ b.soc) (hs1 : b.soc ≤ b.cap) :
    (b.discharge p dt).1.soc ≤ b.cap := by
  rw [Battery.discharge_soc]
  have h1 : 0 ≤ min p b.p_discharge_max * dt / b.eta_d :=
    div_nonneg (mul_nonneg (le_min hp hpd) hdt) hd0.le
  have h2 : (0 : α) ≤ min (min p b.p_discharge_max * dt / b.eta_d) b.soc :=
    le_min h1 hs0
  linarith

/-- `electrolyse` never overfills the tank. -/
theorem HydrogenStore.electrolyse_h2_le_cap (h : HydrogenStore α) (p dt : α) :
    (h.electrolyse p dt).1.h2 ≤ h.cap := by
  rw [HydrogenStore.electrolyse_h2]
  have := min_le_right (min p h.p_elec_max * dt * h.eta_elec) (h.cap - h.h2)
  linarith

/-- `electrolyse` keeps the level non-negative for an in-contract call. -/
theorem HydrogenStore.electrolyse_h2_nonneg (h : HydrogenStore α) (p dt : α)
    (he0 : 0 ≤ h.eta_elec) (hpe : 0 ≤ h.p_elec_max) (hp : 0 ≤ p)
    (hdt : 0 ≤ dt) (hh0 : 0 ≤ h.h2) (hh1 : h.h2 ≤ h.cap) :
    0 ≤ (h.electrolyse p dt).1.h2 := by
  rw [HydrogenStore.electrolyse_h2]
  have h1 : 0 ≤ min p h.p_elec_max * dt * h.eta_elec :=
    mul_nonneg (mul_nonneg (le_min hp hpe) hdt) he0
  have h2 : (0 : α) ≤ min (min p h.p_elec_max * dt * h.eta_elec) (h.cap - h.h2) :=
    le_min h1 (by linarith)
  linarith

/-- `fuel_cell` never drains the tank below zero. -/
theorem HydrogenStore.fuel_cell_h2_nonneg (h : HydrogenStore α) (p dt : α) :
    0 ≤ (h.fuel_cell p dt).1.h2 := by
  rw [HydrogenStore.fuel_cell_h2]
  have := min_le_right (min p h.p_fc_max * dt / h.eta_fc) h.h2
  linarith

/-- `fuel_cell` keeps the level below capacity for an in-contract call. -/
theorem HydrogenStore.fuel_cell_h2_le_cap (h : HydrogenStore α) (p dt : α)
    (hf0 : 0 < h.eta_fc) (hpf : 0 ≤ h.p_fc_max) (hp : 0 ≤ p)
    (hdt : 0 ≤ dt) (hh0 : 0 ≤ h.h2) (hh1 : h.h2 ≤ h.cap) :
    (h.fuel_cell p dt).1.h2 ≤ h.cap := by
  rw [HydrogenStore.fuel_cell_h2]
  have h1 : 0 ≤ min p h.p_fc_max * dt / h.eta_fc :=
    div_nonneg (mul_nonneg (le_min hp hpf) hdt) hf0.le
  have h2 : (0 : α) ≤ min (min p h.p_fc_max * dt / h.eta_fc) h.h2 :=
    le_min h1 hh0
  linarith

/-! ### Dispatch-level lemmas -/

/-- The immutable battery fields survive one `step`. -/
theorem step_battery_fields (e : α) (t : HeatPumpType) (st : SimState α)
    (r : Row α) :
    (step e t st r).1.battery.cap = st.battery.cap ∧
      (step e t st r).1.battery.eta_c = st.battery.eta_c ∧
      (step e t st r).1.battery.eta_d = st.battery.eta_d ∧
      (step e t st r).1.battery.p_charge_max = st.battery.p_charge_max ∧
      (step e t st r).1.battery.p_discharge_max = st.battery.p_discharge_max := by
  refine ⟨?_, ?_, ?_, ?_, ?_⟩ <;>
    (simp only [step, surplusDispatch, deficitDispatch]; split_ifs <;> rfl)

/-- The immutable hydrogen-store fields survive one `step`. -/
theorem step_h2_fields (e : α) (t : HeatPumpType) (st : SimState α)
    (r : Row α) :
    (step e t st r).1.h2.cap = st.h2.cap ∧
      (step e t st r).1.h2.eta_elec = st.h2.eta_elec ∧
      (step e t st r).1.h2.eta_fc = st.h2.eta_fc ∧
      (step e t st r).1.h2.p_elec_max = st.h2.p_elec_max ∧
      (step e t st r).1.h2.p_fc_max = st.h2.p_fc_max := by
  refine ⟨?_, ?_, ?_, ?_, ?_⟩ <;>
    (simp only [step, surplusDispatch, deficitDispatch]; split_ifs <;> rfl)

/-- `paramsOK` of both devices survives one `step`. -/
theorem step_paramsOK (e : α) (t : HeatPumpType) (st : SimState α) (r : Row α)
    (hb : st.battery.paramsOK) (hh : st.h2.paramsOK) :
    (step e t st r).1.battery.paramsOK ∧ (step e t st r).1.h2.paramsOK := by
  obtain ⟨_, c2, c3, c4, c5⟩ := step_battery_fields e t st r
  obtain ⟨_, d2, d3, d4, d5⟩ := step_h2_fields e t st r
  constructor
  · unfold Battery.paramsOK at hb ⊢
    rw [c2, c3, c4, c5]
    exact hb
  · unfold HydrogenStore.paramsOK at hh ⊢
    rw [d2, d3, d4, d5]
    exact hh

/-- Any property of the per-hour log records that one `step` establishes
from an invariant the `step` also preserves holds of every record `run`
produces. -/
theorem run_log_invariant (e : α) (t : HeatPumpType)
    (I : SimState α → Prop) (P : LogRow α → Prop)
    (hpres : ∀ st r, I st → I (step e t st r).1)
    (hstep : ∀ st r, I st → P (step e t st r).2) :
    ∀ (st : SimState α) (rows : List (Row α)), I st →
      ∀ lg ∈ (run e t st rows).2, P lg := by
  intro st rows
  induction rows generalizing st with
  | nil =>
    intro _ lg hlg
    simp [run] at hlg
  | cons r rs ih =>
    intro hI lg hlg
    simp only [run, List.mem_cons] at hlg
    rcases hlg with hlg | hlg
    · exact hlg ▸ hstep st r hI
    · exact ih (step e t st r).1 (hpres st r hI) lg hlg

/-- Per-hour AC energy balance of the surplus branch: exact when a grid
export is reported, and off by only the suppressed sub-`EPS` residual
otherwise. -/
theorem surplusDispatch_balance (st : SimState α) (pv load net heat hp : α)
    (hc0 : 0 ≤ st.battery.eta_c) (hc1 : st.battery.eta_c ≤ 1)
    (he0 : 0 < st.h2.eta_elec)
    (hnet : 0 ≤ net) (hpl : pv - load = net) :
    |energyBalance (surplusDispatch st pv load net heat hp).2| ≤ EPS := by
  have hch : (st.battery.charge net 1).2 ≤ net :=
    Battery.charge_ret_le_req st.battery net 1 hc0 hc1 hnet one_pos
  simp only [surplusDispatch, energyBalance, EPS]
  by_cases hel : net - (st.battery.charge net 1).2 > 1 / 1000000
  · rw [if_pos hel]
    have helec : (st.h2.electrolyse (net - (st.battery.charge net 1).2) 1).2
        ≤ net - (st.battery.charge net 1).2 :=
      le_trans (HydrogenStore.electrolyse_ret_le st.h2 _ 1 he0 one_pos)
        (min_le_left _ _)
    by_cases hexp : net - (st.battery.charge net 1).2
        - (st.h2.electrolyse (net - (st.battery.charge net 1).2) 1).2
        > 1 / 1000000
    · rw [if_pos hexp, abs_le]
      constructor <;> linarith
    · rw [if_neg hexp, abs_le]
      push_neg at hexp
      constructor <;> linarith
  · rw [if_neg hel]
    push_neg at hel
    dsimp only
    by_cases hexp : net - (st.battery.charge net 1).2 - 0 > 1 / 1000000
    · rw [if_pos hexp, abs_le]
      constructor <;> linarith
    · rw [if_neg hexp, abs_le]
      push_neg at hexp
      constructor <;> linarith

/-- Per-hour AC energy balance of the deficit branch: exact when a grid
draw gets reported, with only the suppressed sub-`EPS` residual off
otherwise. -/
theorem deficitDispatch_balance (st : SimState α) (pv load net heat hp : α)
    (hd0 : 0 < st.battery.eta_d) (hf0 : 0 < st.h2.eta_fc)
    (hpl : pv - load = net) :
    |energyBalance (deficitDispatch st pv load net heat hp).2| ≤ EPS := by
  have hdis : (st.battery.discharge (-net) 1).2 ≤ -net :=
    le_trans (Battery.discharge_ret_le st.battery (-net) 1 hd0 one_pos)
      (min_le_left _ _)
  simp only [deficitDispatch, energyBalance, EPS]
  by_cases hfc : -net - (st.battery.discharge (-net) 1).2 > 1 / 1000000
      ∧ st.h2.h2 > 1 / 1000000
  · rw [if_pos hfc]
    have hac : (st.h2.fuel_cell (-net - (st.battery.discharge (-net) 1).2) 1).2.1
        ≤ -net - (st.battery.discharge (-net) 1).2 :=
      le_trans (HydrogenStore.fuel_cell_ac_le st.h2 _ 1 hf0 one_pos)
        (min_le_left _ _)
    by_cases himp : -net - (st.battery.discharge (-net) 1).2
        - (st.h2.fuel_cell (-net - (st.battery.discharge (-net) 1).2) 1).2.1
        > 1 / 1000000
    · rw [if_pos himp, abs_le]
      constructor <;> linarith
    · rw [if_neg himp, abs_le]
      push_neg at himp
      constructor <;> linarith
  · rw [if_neg hfc]
    rw [not_and_or] at hfc
    dsimp only
    by_cases himp : -net - (st.battery.discharge (-net) 1).2 - 0 > 1 / 1000000
    · rw [if_pos himp, abs_le]
      constructor <;> linarith
    · rw [if_neg himp, abs_le]
      push_neg at himp
      rcases hfc with hfc | hfc
      · push_neg at hfc
        constructor <;> linarith
      · constructor <;> linarith

/-- Per-hour AC energy balance of one full `step`. -/
theorem step_energyBalance (e : α) (t : HeatPumpType) (st : SimState α)
    (r : Row α) (hb : st.battery.paramsOK) (hh : st.h2.paramsOK) :
    |energyBalance (step e t st r).2| ≤ EPS := by
  obtain ⟨hc0, hc1, hd0, _, _⟩ := hb
  obtain ⟨he0, hf0, _, _⟩ := hh
  simp only [step]
  split_ifs with hnet
  · exact surplusDispatch_balance st _ _ _ _ _ hc0 hc1 he0 hnet rfl
  · exact deficitDispatch_balance st _ _ _ _ _ hd0 hf0 rfl

instance (b : Battery α) : Decidable b.paramsOK := by
  unfold Battery.paramsOK; infer_instance

instance (h : HydrogenStore α) : Decidable h.paramsOK := by
  unfold HydrogenStore.paramsOK; infer_instance

/-- A concrete rational simulator state used to instantiate the general
theorems: the default configuration's capacities and limits, the devices
half full, and in-range rational efficiencies. -/
def sampleState : SimState ℚ :=
  { battery := ⟨82, 41, 1, 1, 20, 20⟩
    h2 := ⟨1000, 500, 1, 1, 10, 10⟩ }

/-- A concrete surplus hour: plenty of PV against a small load. -/
def sampleRowSurplus : Row ℚ := ⟨30, 1, 2, 1, 3, 3, 3⟩

/-- A concrete deficit hour: no PV against a real load. -/
def sampleRowDeficit : Row ℚ := ⟨0, 4, 2, 1, 3, 3, 3⟩

/-! ### Claims -/

/-- Claim C1: for every hour processed by `MicrogridSimulator.run` (with
device efficiencies in the spec's (0,1] range and non-negative power
limits), the logged quantities satisfy the AC energy balance
`pv_ac + p_grid_import + p_bat_discharge + p_fc =
 load + p_grid_export + p_bat_charge + p_elec` within `ε = 1e-6`, the
battery-charge and electrolyser terms being the AC draws the dispatcher
deducts from the surplus. -/
theorem C1_energy_conservation (e : α) (t : HeatPumpType) (st : SimState α)
    (rows : List (Row α)) (hb : st.battery.paramsOK) (hh : st.h2.paramsOK) :
    ∀ lg ∈ (run e t st rows).2, |energyBalance lg| ≤ EPS :=
  run_log_invariant e t
    (fun s => s.battery.paramsOK ∧ s.h2.paramsOK)
    (fun lg => |energyBalance lg| ≤ EPS)
    (fun s r hI => step_paramsOK e t s r hI.1 hI.2)
    (fun s r hI => step_energyBalance e t s r hI.1 hI.2)
    st rows ⟨hb, hh⟩

/-- Witness for C1 at a concrete two-hour run. -/
theorem C1_energy_conservation_witness :
    |energyBalance (step (1 : ℚ) HeatPumpType.LV sampleState sampleRowSurplus).2|
      ≤ EPS :=
  C1_energy_conservation 1 HeatPumpType.LV sampleState
    [sampleRowSurplus, sampleRowDeficit] (by decide) (by decide)
    _ (by simp [run])

/-! ### Arbitrary call sequences on the storage devices -/

/-- One call on a `Battery`, with its arguments. -/
inductive BatOp (α : Type) where
  | charge (p dt : α)
  | discharge (p dt : α)

/-- Execute one call against the battery state (discarding the return). -/
def Battery.applyOp (b : Battery α) : BatOp α → Battery α
  | .charge p dt => (b.charge p dt).1
  | .discharge p dt => (b.discharge p dt).1

/-- The devices' documented calling contract ("all power quantities are
positive here; sign is handled by caller") plus a positive duration. -/
def BatOp.inContract : BatOp α → Prop
  | .charge p dt => 0 ≤ p ∧ 0 < dt
  | .discharge p dt => 0 ≤ p ∧ 0 < dt

/-- One call on a `HydrogenStore`, with its arguments. -/
inductive H2Op (α : Type) where
  | electrolyse (p dt : α)
  | fuelCell (p dt : α)

/-- Execute one call against the store state (discarding the returns). -/
def HydrogenStore.applyOp (h : HydrogenStore α) : H2Op α → HydrogenStore α
  | .electrolyse p dt => (h.electrolyse p dt).1
  | .fuelCell p dt => (h.fuel_cell p dt).1

/-- In-contract arguments for a `HydrogenStore` call. -/
def H2Op.inContract : H2Op α → Prop
  | .electrolyse p dt => 0 ≤ p ∧ 0 < dt
  | .fuelCell p dt => 0 ≤ p ∧ 0 < dt

/-- The `0 ≤ state_of_charge ≤ capacity` invariant. -/
def Battery.inBounds (b : Battery α) : Prop := 0 ≤ b.soc ∧ b.soc ≤ b.cap

/-- The `0 ≤ hydrogen_level ≤ capacity` invariant. -/
def HydrogenStore.inBounds (h : HydrogenStore α) : Prop := 0 ≤ h.h2 ∧ h.h2 ≤ h.cap

instance (b : Battery α) : Decidable b.inBounds := by
  unfold Battery.inBounds; infer_instance

instance (h : HydrogenStore α) : Decidable h.inBounds := by
  unfold HydrogenStore.inBounds; infer_instance

instance (op : BatOp α) : Decidable op.inContract := by
  cases op <;> (unfold BatOp.inContract; infer_instance)

instance (op : H2Op α) : Decidable op.inContract := by
  cases op <;> (unfold H2Op.inContract; infer_instance)

/-- A battery call touches only `soc`. -/
theorem Battery.applyOp_bat_fields (b : Battery α) (op : BatOp α) :
    (b.applyOp op).cap = b.cap ∧ (b.applyOp op).eta_c = b.eta_c ∧
      (b.applyOp op).eta_d = b.eta_d ∧
      (b.applyOp op).p_charge_max = b.p_charge_max ∧
      (b.applyOp op).p_discharge_max = b.p_discharge_max := by
  cases op <;> exact ⟨rfl, rfl, rfl, rfl, rfl⟩

/-- A store call touches only `h2`. -/
theorem HydrogenStore.applyOp_h2_fields (h : HydrogenStore α) (op : H2Op α) :
    (h.applyOp op).cap = h.cap ∧ (h.applyOp op).eta_elec = h.eta_elec ∧
      (h.applyOp op).eta_fc = h.eta_fc ∧
      (h.applyOp op).p_elec_max = h.p_elec_max ∧
      (h.applyOp op).p_fc_max = h.p_fc_max := by
  cases op <;> exact ⟨rfl, rfl, rfl, rfl, rfl⟩

/-- One in-contract battery call preserves the SOC bounds. -/
theorem Battery.applyOp_bat_inBounds (b : Battery α) (op : BatOp α)
    (hpar : b.paramsOK) (hb : b.inBounds) (hop : op.inContract) :
    (b.applyOp op).inBounds := by
  obtain ⟨hc0, _, hd0, hpc, hpd⟩ := hpar
  obtain ⟨hs0, hs1⟩ := hb
  cases op with
  | charge p dt =>
    obtain ⟨hp, hdt⟩ := hop
    exact ⟨Battery.charge_soc_nonneg b p dt hc0 hpc hp hdt.le hs0 hs1,
           Battery.charge_soc_le_cap b p dt⟩
  | discharge p dt =>
    obtain ⟨hp, hdt⟩ := hop
    exact ⟨Battery.discharge_soc_nonneg b p dt,
           Battery.discharge_soc_le_cap b p dt hd0 hpd hp hdt.le hs0 hs1⟩

/-- One in-contract store call preserves the level bounds. -/
theorem HydrogenStore.applyOp_h2_inBounds (h : HydrogenStore α) (op : H2Op α)
    (hpar : h.paramsOK) (hb : h.inBounds) (hop : op.inContract) :
    (h.applyOp op).inBounds := by
  obtain ⟨he0, hf0, hpe, hpf⟩ := hpar
  obtain ⟨hh0, hh1⟩ := hb
  cases op with
  | electrolyse p dt =>
    obtain ⟨hp, hdt⟩ := hop
    exact ⟨HydrogenStore.electrolyse_h2_nonneg h p dt he0.le hpe hp hdt.le hh0 hh1,
           HydrogenStore.electrolyse_h2_le_cap h p dt⟩
  | fuelCell p dt =>
    obtain ⟨hp, hdt⟩ := hop
    exact ⟨HydrogenStore.fuel_cell_h2_nonneg h p dt,
           HydrogenStore.fuel_cell_h2_le_cap h p dt hf0 hpf hp hdt.le hh0 hh1⟩

/-- Folding any in-contract battery call sequence preserves the bounds. -/
theorem Battery.foldl_bat_inBounds (ops : List (BatOp α)) :
    ∀ b : Battery α, b.paramsOK → b.inBounds → (∀ op ∈ ops, op.inContract) →
      (ops.foldl Battery.applyOp b).inBounds := by
  induction ops with
  | nil => intro b _ hb _; simpa using hb
  | cons op ops ih =>
    intro b hpar hb hops
    simp only [List.foldl_cons]
    obtain ⟨_, c2, c3, c4, c5⟩ := Battery.applyOp_bat_fields b op
    refine ih (b.applyOp op) ?_
      (Battery.applyOp_bat_inBounds b op hpar hb (hops op (List.mem_cons_self op ops)))
      (fun o ho => hops o (List.mem_cons_of_mem op ho))
    unfold Battery.paramsOK at hpar ⊢
    rw [c2, c3, c4, c5]
    exact hpar

/-- Folding any in-contract store call sequence preserves the bounds. -/
theorem HydrogenStore.foldl_h2_inBounds (ops : List (H2Op α)) :
    ∀ h : HydrogenStore α, h.paramsOK → h.inBounds →
      (∀ op ∈ ops, op.inContract) →
      (ops.foldl HydrogenStore.applyOp h).inBounds := by
  induction ops with
  | nil => intro h _ hb _; simpa using hb
  | cons op ops ih =>
    intro h hpar hb hops
    simp only [List.foldl_cons]
    obtain ⟨_, c2, c3, c4, c5⟩ := HydrogenStore.applyOp_h2_fields h op
    refine ih (h.applyOp op) ?_
      (HydrogenStore.applyOp_h2_inBounds h op hpar hb
        (hops op (List.mem_cons_self op ops)))
      (fun o ho => hops o (List.mem_cons_of_mem op ho))
    unfold HydrogenStore.paramsOK at hpar ⊢
    rw [c2, c3, c4, c5]
    exact hpar

/-- The surplus branch keeps both devices within bounds. -/
theorem surplusDispatch_inBounds (st : SimState α) (pv load net heat hp : α)
    (hb : st.battery.paramsOK) (hh : st.h2.paramsOK)
    (hsb : st.battery.inBounds) (hsh : st.h2.inBounds) (hnet : 0 ≤ net) :
    (surplusDispatch st pv load net heat hp).1.battery.inBounds ∧
      (surplusDispatch st pv load net heat hp).1.h2.inBounds := by
  obtain ⟨hc0, _, _, hpc, _⟩ := hb
  obtain ⟨he0, _, hpe, _⟩ := hh
  obtain ⟨hs0, hs1⟩ := hsb
  obtain ⟨hh0, hh1⟩ := hsh
  simp only [surplusDispatch]
  constructor
  · exact ⟨Battery.charge_soc_nonneg st.battery net 1 hc0 hpc hnet one_pos.le hs0 hs1,
           Battery.charge_soc_le_cap st.battery net 1⟩
  · split_ifs with hel
    · have hreq : 0 ≤ net - (st.battery.charge net 1).2 :=
        le_of_lt (lt_trans (by norm_num) hel)
      exact ⟨HydrogenStore.electrolyse_h2_nonneg st.h2 _ 1 he0.le hpe hreq
               one_pos.le hh0 hh1,
             HydrogenStore.electrolyse_h2_le_cap st.h2 _ 1⟩
    · exact ⟨hh0, hh1⟩

/-- The deficit branch keeps both devices within bounds. -/
theorem deficitDispatch_inBounds (st : SimState α) (pv load net heat hp : α)
    (hb : st.battery.paramsOK) (hh : st.h2.paramsOK)
    (hsb : st.battery.inBounds) (hsh : st.h2.inBounds) (hnet : 0 ≤ -net) :
    (deficitDispatch st pv load net heat hp).1.battery.inBounds ∧
      (deficitDispatch st pv load net heat hp).1.h2.inBounds := by
  obtain ⟨_, _, hd0, _, hpd⟩ := hb
  obtain ⟨_, hf0, _, hpf⟩ := hh
  obtain ⟨hs0, hs1⟩ := hsb
  obtain ⟨hh0, hh1⟩ := hsh
  simp only [deficitDispatch]
  constructor
  · exact ⟨Battery.discharge_soc_nonneg st.battery (-net) 1,
           Battery.discharge_soc_le_cap st.battery (-net) 1 hd0 hpd hnet
             one_pos.le hs0 hs1⟩
  · split_ifs with hfc
    · have hreq : 0 ≤ -net - (st.battery.discharge (-net) 1).2 :=
        le_of_lt (lt_trans (by norm_num [EPS]) hfc.1)
      exact ⟨HydrogenStore.fuel_cell_h2_nonneg st.h2 _ 1,
             HydrogenStore.fuel_cell_h2_le_cap st.h2 _ 1 hf0 hpf hreq
               one_pos.le hh0 hh1⟩
    · exact ⟨hh0, hh1⟩

/-- One `step` keeps both devices within bounds. -/
theorem step_inBounds (e : α) (t : HeatPumpType) (st : SimState α) (r : Row α)
    (hb : st.battery.paramsOK) (hh : st.h2.paramsOK)
    (hsb : st.battery.inBounds) (hsh : st.h2.inBounds) :
    (step e t st r).1.battery.inBounds ∧ (step e t st r).1.h2.inBounds := by
  simp only [step]
  split_ifs with hnet
  · exact surplusDispatch_inBounds st _ _ _ _ _ hb hh hsb hsh hnet
  · exact deficitDispatch_inBounds st _ _ _ _ _ hb hh hsb hsh
      (by push_neg at hnet; linarith)

/-- The logged `soc_bat` is the battery SOC after the hour. -/
theorem step_log_soc (e : α) (t : HeatPumpType) (st : SimState α) (r : Row α) :
    (step e t st r).2.soc_bat = (step e t st r).1.battery.soc := by
  simp only [step, surplusDispatch, deficitDispatch]
  split_ifs <;> rfl

/-- The logged `h2_store` is the hydrogen level after the hour. -/
theorem step_log_h2 (e : α) (t : HeatPumpType) (st : SimState α) (r : Row α) :
    (step e t st r).2.h2_store = (step e t st r).1.h2.h2 := by
  simp only [step, surplusDispatch, deficitDispatch]
  split_ifs <;> rfl

/-- Claim C2: starting from states within bounds (and parameters in the
spec's ranges), every sequence of in-contract `charge`/`discharge` calls on
a `Battery` and `electrolyse`/`fuel_cell` calls on a `HydrogenStore` keeps
`0 ≤ soc ≤ cap` and `0 ≤ h2 ≤ cap` — every call boundary is the end of the
fold over some prefix, which is again such a sequence — and consequently
every hour logged by `run` records in-bounds `soc_bat` and `h2_store`. -/
theorem C2_storage_bounds :
    (∀ (b : Battery α) (ops : List (BatOp α)), b.paramsOK → b.inBounds →
        (∀ op ∈ ops, op.inContract) → (ops.foldl Battery.applyOp b).inBounds) ∧
    (∀ (h : HydrogenStore α) (ops : List (H2Op α)), h.paramsOK → h.inBounds →
        (∀ op ∈ ops, op.inContract) →
        (ops.foldl HydrogenStore.applyOp h).inBounds) ∧
    (∀ (e : α) (t : HeatPumpType) (st : SimState α) (rows : List (Row α)),
        st.battery.paramsOK → st.h2.paramsOK →
        st.battery.inBounds → st.h2.inBounds →
        ∀ lg ∈ (run e t st rows).2,
          (0 ≤ lg.soc_bat ∧ lg.soc_bat ≤ st.battery.cap) ∧
          (0 ≤ lg.h2_store ∧ lg.h2_store ≤ st.h2.cap)) := by
  refine ⟨fun b ops h1 h2 h3 => Battery.foldl_bat_inBounds ops b h1 h2 h3,
          fun h ops h1 h2 h3 => HydrogenStore.foldl_h2_inBounds ops h h1 h2 h3, ?_⟩
  intro e t st rows hb hh hsb hsh
  refine run_log_invariant e t
    (fun s => (s.battery.paramsOK ∧ s.h2.paramsOK) ∧
      (s.battery.inBounds ∧ s.h2.inBounds) ∧
      (s.battery.cap = st.battery.cap ∧ s.h2.cap = st.h2.cap))
    (fun lg => (0 ≤ lg.soc_bat ∧ lg.soc_bat ≤ st.battery.cap) ∧
      (0 ≤ lg.h2_store ∧ lg.h2_store ≤ st.h2.cap))
    ?_ ?_ st rows ⟨⟨hb, hh⟩, ⟨hsb, hsh⟩, rfl, rfl⟩
  · rintro s r ⟨⟨h1, h2⟩, ⟨h3, h4⟩, h5, h6⟩
    exact ⟨step_paramsOK e t s r h1 h2,
           step_inBounds e t s r h1 h2 h3 h4,
           (step_battery_fields e t s r).1.trans h5,
           (step_h2_fields e t s r).1.trans h6⟩
  · rintro s r ⟨⟨h1, h2⟩, ⟨h3, h4⟩, h5, h6⟩
    obtain ⟨⟨hbs0, hbs1⟩, hhs0, hhs1⟩ := step_inBounds e t s r h1 h2 h3 h4
    rw [step_log_soc, step_log_h2]
    refine ⟨⟨hbs0, ?_⟩, hhs0, ?_⟩
    · rw [← h5, ← (step_battery_fields e t s r).1]
      exact hbs1
    · rw [← h6, ← (step_h2_fields e t s r).1]
      exact hhs1

/-- Witness for C2: a concrete call sequence on each device and a concrete
one-hour run. -/
theorem C2_storage_bounds_witness :
    ([BatOp.charge (5 : ℚ) 1,
      BatOp.discharge 3 1].foldl Battery.applyOp sampleState.battery).inBounds ∧
    ([H2Op.electrolyse (5 : ℚ) 1,
      H2Op.fuelCell 3 1].foldl HydrogenStore.applyOp sampleState.h2).inBounds ∧
    ∀ lg ∈ (run (1 : ℚ) HeatPumpType.LV sampleState [sampleRowSurplus]).2,
      (0 ≤ lg.soc_bat ∧ lg.soc_bat ≤ sampleState.battery.cap) ∧
      (0 ≤ lg.h2_store ∧ lg.h2_store ≤ sampleState.h2.cap) :=
  ⟨(@C2_storage_bounds ℚ _).1 sampleState.battery _
      (by decide) (by decide) (by decide),
   (@C2_storage_bounds ℚ _).2.1 sampleState.h2 _
      (by decide) (by decide) (by decide),
   (@C2_storage_bounds ℚ _).2.2 1 HeatPumpType.LV sampleState [sampleRowSurplus]
      (by decide) (by decide) (by decide) (by decide)⟩

/-- Claim C6: each hour runs exactly one dispatch branch, so at most one
direction of each storage device is active: a positive logged battery
charge forces zero logged discharge and vice versa, and a positive logged
electrolyser power forces zero logged fuel-cell power and vice versa. -/
theorem C6_mutual_exclusion (e : α) (t : HeatPumpType) (st : SimState α)
    (rows : List (Row α)) :
    ∀ lg ∈ (run e t st rows).2,
      (0 < lg.p_bat_charge → lg.p_bat_discharge = 0) ∧
      (0 < lg.p_bat_discharge → lg.p_bat_charge = 0) ∧
      (0 < lg.p_elec → lg.p_fc = 0) ∧
      (0 < lg.p_fc → lg.p_elec = 0) := by
  refine run_log_invariant e t (fun _ => True) _ (fun _ _ _ => trivial) ?_
    st rows trivial
  intro s r _
  simp only [step, surplusDispatch, deficitDispatch]
  split_ifs <;>
    first
      | exact ⟨fun _ => rfl, fun hlt => absurd hlt (lt_irrefl 0), fun _ => rfl,
          fun hlt => absurd hlt (lt_irrefl 0)⟩
      | exact ⟨fun hlt => absurd hlt (lt_irrefl 0), fun _ => rfl,
          fun hlt => absurd hlt (lt_irrefl 0), fun _ => rfl⟩

/-- Witness for C6 at a concrete one-hour run. -/
theorem C6_mutual_exclusion_witness :
    (0 < (step (1 : ℚ) HeatPumpType.LV sampleState sampleRowDeficit).2.p_bat_charge →
      (step (1 : ℚ) HeatPumpType.LV sampleState sampleRowDeficit).2.p_bat_discharge = 0) ∧
    (0 < (step (1 : ℚ) HeatPumpType.LV sampleState sampleRowDeficit).2.p_bat_discharge →
      (step (1 : ℚ) HeatPumpType.LV sampleState sampleRowDeficit).2.p_bat_charge = 0) ∧
    (0 < (step (1 : ℚ) HeatPumpType.LV sampleState sampleRowDeficit).2.p_elec →
      (step (1 : ℚ) HeatPumpType.LV sampleState sampleRowDeficit).2.p_fc = 0) ∧
    (0 < (step (1 : ℚ) HeatPumpType.LV sampleState sampleRowDeficit).2.p_fc →
      (step (1 : ℚ) HeatPumpType.LV sampleState sampleRowDeficit).2.p_elec = 0) :=
  C6_mutual_exclusion 1 HeatPumpType.LV sampleState [sampleRowDeficit]
    _ (by simp [run])

/-- Both heat columns of one `step` record the hour's `q_space + q_dhw`. -/
theorem step_heat_fields (e : α) (t : HeatPumpType) (st : SimState α)
    (r : Row α) :
    (step e t st r).2.heat_pump_heat = r.q_space + r.q_dhw ∧
      (step e t st r).2.heat_total_demand = r.q_space + r.q_dhw := by
  refine ⟨?_, ?_⟩ <;>
    (simp only [step, surplusDispatch, deficitDispatch]; split_ifs <;> rfl)

/-- The `heat_pump_heat` column of a run, hour by hour. -/
theorem run_heat_pump_map (e : α) (t : HeatPumpType) :
    ∀ (st : SimState α) (rows : List (Row α)),
      (run e t st rows).2.map LogRow.heat_pump_heat
        = rows.map (fun r => r.q_space + r.q_dhw) := by
  intro st rows
  induction rows generalizing st with
  | nil => rfl
  | cons r rs ih =>
    simp only [run, List.map_cons]
    rw [(step_heat_fields e t st r).1, ih]

/-- The `heat_total_demand` column of a run, hour by hour. -/
theorem run_heat_demand_map (e : α) (t : HeatPumpType) :
    ∀ (st : SimState α) (rows : List (Row α)),
      (run e t st rows).2.map LogRow.heat_total_demand
        = rows.map (fun r => r.q_space + r.q_dhw) := by
  intro st rows
  induction rows generalizing st with
  | nil => rfl
  | cons r rs ih =>
    simp only [run, List.map_cons]
    rw [(step_heat_fields e t st r).2, ih]

/-- Claim C10: every logged hour has `heat_pump_heat = heat_total_demand`,
and both columns equal the hour's `q_space + q_dhw` — the fuel cell's waste
heat never displaces any of it. -/
theorem C10_heat_pump_covers_all_heat (e : α) (t : HeatPumpType)
    (st : SimState α) (rows : List (Row α)) :
    (∀ lg ∈ (run e t st rows).2, lg.heat_pump_heat = lg.heat_total_demand) ∧
    (run e t st rows).2.map LogRow.heat_pump_heat
      = rows.map (fun r => r.q_space + r.q_dhw) ∧
    (run e t st rows).2.map LogRow.heat_total_demand
      = rows.map (fun r => r.q_space + r.q_dhw) := by
  refine ⟨?_, run_heat_pump_map e t st rows, run_heat_demand_map e t st rows⟩
  refine run_log_invariant e t (fun _ => True) _ (fun _ _ _ => trivial) ?_
    st rows trivial
  intro s r _
  exact (step_heat_fields e t s r).1.trans (step_heat_fields e t s r).2.symm

/-- Witness for C10 at a concrete one-hour run. -/
theorem C10_heat_pump_covers_all_heat_witness :
    (step (1 : ℚ) HeatPumpType.LV sampleState sampleRowDeficit).2.heat_pump_heat
      = (step (1 : ℚ) HeatPumpType.LV sampleState sampleRowDeficit).2.heat_total_demand :=
  (C10_heat_pump_covers_all_heat 1 HeatPumpType.LV sampleState
    [sampleRowDeficit]).1 _ (by simp [run])

/-- A concrete hydrogen store whose tank is nearly full, so that the next
electrolyser call is clamped by headroom. -/
def nearFullStore : HydrogenStore ℚ := ⟨10, 9, 1, 1, 10, 10⟩

/-- Claim C7: `electrolyse` returns the AC power obtained by reversing the
efficiency conversion over the actual stored increment: return value ×
`eta_elec` × `dt` equals the tank-level increase, clamping included. -/
theorem C7_electrolyse_reverses_efficiency (h : HydrogenStore α) (p dt : α)
    (he : 0 < h.eta_elec) (hdt : 0 < dt) :
    (h.electrolyse p dt).2 * h.eta_elec * dt
      = (h.electrolyse p dt).1.h2 - h.h2 := by
  rw [HydrogenStore.electrolyse_ret, HydrogenStore.electrolyse_h2]
  field_simp
  ring

/-- Witness for C7 at a headroom-clamped concrete call. -/
theorem C7_electrolyse_reverses_efficiency_witness :
    (nearFullStore.electrolyse 4 1).2 * nearFullStore.eta_elec * 1
      = (nearFullStore.electrolyse 4 1).1.h2 - nearFullStore.h2 :=
  C7_electrolyse_reverses_efficiency nearFullStore 4 1 (by decide) (by decide)

/-- Claim C8: `fuel_cell` returns a pair (delivered electrical power, waste
heat); the waste heat is (chemical energy drawn from the tank − delivered
electrical energy) / dt, and it is non-negative whenever the efficiency is
at most 1 (for an in-contract call on a non-negative tank level). -/
theorem C8_fuel_cell_waste_heat (h : HydrogenStore α) (p dt : α)
    (hdt : 0 < dt) (hf0 : 0 < h.eta_fc) (hf1 : h.eta_fc ≤ 1)
    (hp : 0 ≤ p) (hpf : 0 ≤ h.p_fc_max) (hh0 : 0 ≤ h.h2) :
    (h.fuel_cell p dt).2.2
        = ((h.h2 - (h.fuel_cell p dt).1.h2) - (h.fuel_cell p dt).2.1 * dt) / dt ∧
      0 ≤ (h.fuel_cell p dt).2.2 := by
  constructor
  · rw [HydrogenStore.fuel_cell_heat, HydrogenStore.fuel_cell_h2,
      HydrogenStore.fuel_cell_ac]
    ring_nf
  · rw [HydrogenStore.fuel_cell_heat]
    have heav : 0 ≤ min (min p h.p_fc_max * dt / h.eta_fc) h.h2 :=
      le_min (div_nonneg (mul_nonneg (le_min hp hpf) hdt.le) hf0.le) hh0
    rw [div_mul_cancel₀ _ hdt.ne']
    refine div_nonneg ?_ hdt.le
    nlinarith [mul_nonneg heav (sub_nonneg.mpr hf1)]

/-- Witness for C8 at a concrete call. -/
theorem C8_fuel_cell_waste_heat_witness :
    (nearFullStore.fuel_cell 3 1).2.2
        = ((nearFullStore.h2 - (nearFullStore.fuel_cell 3 1).1.h2)
            - (nearFullStore.fuel_cell 3 1).2.1 * 1) / 1 ∧
      0 ≤ (nearFullStore.fuel_cell 3 1).2.2 :=
  C8_fuel_cell_waste_heat nearFullStore 3 1 (by decide) (by decide) (by decide)
    (by decide) (by decide) (by decide)

/-- A concrete battery with `eta_c = 1/2` (round-trip 1/4), used to separate
the post-efficiency return of `charge` from an AC-side draw. -/
def halfEffBattery : Battery ℚ := ⟨100, 0, 1/2, 1, 10, 10⟩

/-- Counterexample to C3: `Battery.charge` does NOT return "the energy
actually added to storage converted back through the charge efficiency,
divided by dt".  With `eta_c = 1/2`, headroom 100 and request 2 kW for one
hour, the stored increase is 1 kWh; converting back through the efficiency
would give 2 kW, but the method returns `e_actual / dt = 1` kW. -/
theorem C3_charge_return_counterexample :
    (halfEffBattery.charge 2 1).2
      ≠ ((halfEffBattery.charge 2 1).1.soc - halfEffBattery.soc)
          / halfEffBattery.eta_c / 1 := by
  norm_num [halfEffBattery, Battery.charge, min_def]

/-- Claim C3 as amended: `charge` clamps the request to the power limit,
applies the charge efficiency on the way into storage, clamps the stored
increase to the remaining headroom — and returns the stored increase
divided by dt (the post-efficiency DC-side power, NOT converted back
through the efficiency); for an in-contract call the return is never
negative and never exceeds the charge power limit. -/
theorem C3_charge_semantics (b : Battery α) (p dt : α)
    (hp : 0 ≤ p) (hdt : 0 < dt) (hc0 : 0 < b.eta_c) (hc1 : b.eta_c ≤ 1)
    (hpc : 0 ≤ b.p_charge_max) (hs0 : 0 ≤ b.soc) (hs1 : b.soc ≤ b.cap) :
    (b.charge p dt).1.soc
        = b.soc + min (min p b.p_charge_max * dt * b.eta_c) (b.cap - b.soc) ∧
      (b.charge p dt).2 = ((b.charge p dt).1.soc - b.soc) / dt ∧
      0 ≤ (b.charge p dt).2 ∧
      (b.charge p dt).2 ≤ b.p_charge_max := by
  refine ⟨Battery.charge_soc b p dt, ?_, ?_, ?_⟩
  · rw [Battery.charge_ret, Battery.charge_soc]
    ring_nf
  · rw [Battery.charge_ret]
    refine div_nonneg ?_ hdt.le
    exact le_min (mul_nonneg (mul_nonneg (le_min hp hpc) hdt.le) hc0.le)
      (by linarith)
  · rw [Battery.charge_ret, div_le_iff₀ hdt]
    have h1 : min (min p b.p_charge_max * dt * b.eta_c) (b.cap - b.soc)
        ≤ min p b.p_charge_max * dt * b.eta_c := min_le_left _ _
    have t1 : 0 ≤ (b.p_charge_max - min p b.p_charge_max) * dt * b.eta_c :=
      mul_nonneg (mul_nonneg
        (by linarith [min_le_right p b.p_charge_max]) hdt.le) hc0.le
    have t2 : 0 ≤ b.p_charge_max * dt * (1 - b.eta_c) :=
      mul_nonneg (mul_nonneg hpc hdt.le) (by linarith)
    nlinarith [h1, t1, t2]

/-- Witness for the amended C3 at a concrete in-contract call. -/
theorem C3_charge_semantics_witness :
    (halfEffBattery.charge 2 1).1.soc
        = halfEffBattery.soc
          + min (min 2 halfEffBattery.p_charge_max * 1 * halfEffBattery.eta_c)
              (halfEffBattery.cap - halfEffBattery.soc) ∧
      (halfEffBattery.charge 2 1).2
        = ((halfEffBattery.charge 2 1).1.soc - halfEffBattery.soc) / 1 ∧
      0 ≤ (halfEffBattery.charge 2 1).2 ∧
      (halfEffBattery.charge 2 1).2 ≤ halfEffBattery.p_charge_max :=
  C3_charge_semantics halfEffBattery 2 1 (by norm_num)
    (by norm_num) (by norm_num [halfEffBattery]) (by norm_num [halfEffBattery])
    (by norm_num [halfEffBattery]) (by norm_num [halfEffBattery])
    (by norm_num [halfEffBattery])

/-- A configuration with a negative inverter efficiency — invalid under the
spec's taxonomy, yet accepted verbatim by the constructor. -/
def invalidParams : SystemParameters ℚ :=
  mkSystemParameters (-1) 1 1 1 82 1000 0 (some 500) HeatPumpType.LV
    ⟨20, 20, 10, 10⟩

/-- Counterexample to C4: constructing `SystemParameters` with a negative
efficiency does not fail — the constructor is total, and the resulting
record holds the invalid value `-1` unclamped while violating the spec's
validity predicate. -/
theorem C4_construction_counterexample :
    invalidParams.eta_inv = -1 ∧ ¬ invalidParams.specValid :=
  ⟨rfl, by decide⟩

/-- Claim C4 as amended: construction performs no validation at all — every
field value, valid or not, is stored exactly as given (neither rejected nor
clamped); the only construction-time logic is `__post_init__` defaulting
the hydrogen level to half the tank capacity when it was passed as `None`. -/
theorem C4_construction_stores_verbatim
    (ei rt ee ef bc hc si : α) (h2i : Option α) (t : HeatPumpType)
    (L : ComponentLimits α)
    (hbad : ¬ (mkSystemParameters ei rt ee ef bc hc si h2i t L).specValid) :
    (mkSystemParameters ei rt ee ef bc hc si h2i t L).eta_inv = ei ∧
    (mkSystemParameters ei rt ee ef bc hc si h2i t L).eta_bat_roundtrip = rt ∧
    (mkSystemParameters ei rt ee ef bc hc si h2i t L).eta_electrolyser = ee ∧
    (mkSystemParameters ei rt ee ef bc hc si h2i t L).eta_fuel_cell = ef ∧
    (mkSystemParameters ei rt ee ef bc hc si h2i t L).battery_capacity_kwh = bc ∧
    (mkSystemParameters ei rt ee ef bc hc si h2i t L).h2_capacity_kwh = hc ∧
    (mkSystemParameters ei rt ee ef bc hc si h2i t L).soc_bat_init = si ∧
    (mkSystemParameters ei rt ee ef bc hc si h2i t L).limits = L ∧
    (mkSystemParameters ei rt ee ef bc hc si h2i t L).h2_init_kwh
      = h2i.getD ((1 / 2) * hc) := by
  refine ⟨rfl, rfl, rfl, rfl, rfl, rfl, rfl, rfl, ?_⟩
  cases h2i <;> rfl

/-- Witness for the amended C4 at the concrete invalid configuration. -/
theorem C4_construction_stores_verbatim_witness :
    invalidParams.eta_inv = -1 ∧
    invalidParams.eta_bat_roundtrip = 1 ∧
    invalidParams.eta_electrolyser = 1 ∧
    invalidParams.eta_fuel_cell = 1 ∧
    invalidParams.battery_capacity_kwh = 82 ∧
    invalidParams.h2_capacity_kwh = 1000 ∧
    invalidParams.soc_bat_init = 0 ∧
    invalidParams.limits = ⟨20, 20, 10, 10⟩ ∧
    invalidParams.h2_init_kwh = 500 :=
  C4_construction_stores_verbatim (-1) 1 1 1 82 1000 0 (some 500)
    HeatPumpType.LV ⟨20, 20, 10, 10⟩ (by decide)

/-- A state engineered so that one surplus hour exactly fills the battery
(headroom 1 kWh, `eta_c = 1`) and then exactly fills the tank (headroom
1 kWh, `eta_elec = 1/2`, so the electrolyser draws 2 kW of AC). -/
def fillState : SimState ℚ :=
  { battery := ⟨2, 1, 1, 1, 10, 10⟩
    h2 := ⟨4, 3, 1/2, 1/2, 10, 10⟩ }

/-- An hour with `pv_ac = 3.001`, no load: after filling the battery (1 kW)
and the tank (2 kW of AC) exactly, 0.001 kW of surplus remains. -/
def fillRow : Row ℚ := ⟨3001/1000, 0, 0, 0, 1, 1, 1⟩

/-- The same hour with `pv_ac = 3.0000001`, leaving 0.0000001 kW — a
remainder genuinely below `EPS = 1e-6`. -/
def fillRowTiny : Row ℚ := ⟨30000001/10000000, 0, 0, 0, 1, 1, 1⟩

/-- Counterexample to C5 (spec Scenario D): a remaining surplus of 0.001 kW
is NOT below `ε = 1e-6` kW, so the hour's logged `p_grid_export` is 0.001,
not 0 — while battery SOC and hydrogen level do both reach capacity. -/
theorem C5_scenario_d_counterexample :
    (run (1 : ℚ) HeatPumpType.LV fillState [fillRow]).2.map LogRow.p_grid_export
        = [1/1000] ∧
    (run (1 : ℚ) HeatPumpType.LV fillState [fillRow]).2.map LogRow.soc_bat
        = [2] ∧
    fillState.battery.cap = 2 ∧
    (run (1 : ℚ) HeatPumpType.LV fillState [fillRow]).2.map LogRow.h2_store
        = [4] ∧
    fillState.h2.cap = 4 ∧
    (1/1000 : ℚ) ≠ 0 := by
  refine ⟨?_, ?_, rfl, ?_, rfl, by norm_num⟩ <;>
    norm_num [run, step, surplusDispatch, deficitDispatch, fillState, fillRow,
      Battery.charge, HydrogenStore.electrolyse, Row.cop, EPS, min_def, max_def]

/-- Claim C5 as amended: with the remainder actually below `ε` (0.0000001 kW
instead of 0.001 kW), the hour that exactly fills battery and tank logs
`p_grid_export = 0` while both devices report full capacity; the spec's
0.001 kW remainder is above `ε` and is logged as a 0.001 kW export. -/
theorem C5_scenario_d_amended :
    (run (1 : ℚ) HeatPumpType.LV fillState [fillRowTiny]).2.map
        LogRow.p_grid_export = [0] ∧
    (run (1 : ℚ) HeatPumpType.LV fillState [fillRowTiny]).2.map LogRow.soc_bat
        = [2] ∧
    fillState.battery.cap = 2 ∧
    (run (1 : ℚ) HeatPumpType.LV fillState [fillRowTiny]).2.map LogRow.h2_store
        = [4] ∧
    fillState.h2.cap = 4 := by
  refine ⟨?_, ?_, rfl, ?_, rfl⟩ <;>
    norm_num [run, step, surplusDispatch, deficitDispatch, fillState,
      fillRowTiny, Battery.charge, HydrogenStore.electrolyse, Row.cop, EPS,
      min_def, max_def]

/-- One unclamped charge of AC energy `E` (at `dt = 1`) followed by a
discharge of the entire stored amount delivers `E · eta_c · eta_d` and
restores the initial SOC. -/
theorem Battery.cycle (b : Battery α) (E : α) (hE : 0 ≤ E)
    (hec : 0 ≤ b.eta_c) (hed : 0 < b.eta_d) (hsoc : 0 ≤ b.soc)
    (h1 : E ≤ b.p_charge_max) (h2 : E * b.eta_c ≤ b.cap - b.soc)
    (h3 : E * (b.eta_c * b.eta_d) ≤ b.p_discharge_max) :
    ((b.charge E 1).1.discharge (E * (b.eta_c * b.eta_d)) 1).2
        = E * (b.eta_c * b.eta_d) ∧
      ((b.charge E 1).1.discharge (E * (b.eta_c * b.eta_d)) 1).1.soc = b.soc := by
  have hmin2 : min (min E b.p_charge_max * 1 * b.eta_c) (b.cap - b.soc)
      = E * b.eta_c := by
    rw [min_eq_left h1, mul_one]
    exact min_eq_left h2
  have hsoc1 : (b.charge E 1).1.soc = b.soc + E * b.eta_c := by
    rw [Battery.charge_soc, hmin2]
  have hb1ed : (b.charge E 1).1.eta_d = b.eta_d := rfl
  have hb1pd : (b.charge E 1).1.p_discharge_max = b.p_discharge_max := rfl
  have hq : min (E * (b.eta_c * b.eta_d)) b.p_discharge_max
      = E * (b.eta_c * b.eta_d) := min_eq_left h3
  have he_req : E * (b.eta_c * b.eta_d) * 1 / b.eta_d = E * b.eta_c := by
    field_simp
    ring
  have he_avail : min (E * b.eta_c) (b.soc + E * b.eta_c) = E * b.eta_c :=
    min_eq_left (by linarith)
  constructor
  · rw [Battery.discharge_ret, hb1ed, hb1pd, hsoc1, hq, he_req, he_avail,
      div_one]
    ring
  · rw [Battery.discharge_soc, hb1ed, hb1pd, hsoc1, hq, he_req, he_avail]
    ring

/-- Claim C9: the battery's charge and discharge efficiencies are each
√(round-trip efficiency), and for a battery built from the configuration
(with enough headroom and wide enough power limits) charging an AC energy
`E` and then discharging the entire stored amount delivers exactly
round-trip-efficiency × `E` — one full cycle loses exactly
(1 − round-trip efficiency) of the energy. -/
theorem C9_sqrt_roundtrip_cycle (p : SystemParameters ℝ) (E : ℝ)
    (hrt : 0 < p.eta_bat_roundtrip) (hE : 0 ≤ E)
    (hsoc : 0 ≤ p.soc_bat_init * p.battery_capacity_kwh)
    (h1 : E ≤ p.limits.p_bat_charge)
    (h2 : E * Real.sqrt p.eta_bat_roundtrip
        ≤ p.battery_capacity_kwh - p.soc_bat_init * p.battery_capacity_kwh)
    (h3 : E * p.eta_bat_roundtrip ≤ p.limits.p_bat_discharge) :
    (Battery.fromParams p).eta_c = Real.sqrt p.eta_bat_roundtrip ∧
    (Battery.fromParams p).eta_d = Real.sqrt p.eta_bat_roundtrip ∧
    (((Battery.fromParams p).charge E 1).1.discharge
        (E * p.eta_bat_roundtrip) 1).2 = p.eta_bat_roundtrip * E ∧
    (((Battery.fromParams p).charge E 1).1.discharge
        (E * p.eta_bat_roundtrip) 1).1.soc = (Battery.fromParams p).soc := by
  have hs : Real.sqrt p.eta_bat_roundtrip * Real.sqrt p.eta_bat_roundtrip
      = p.eta_bat_roundtrip := Real.mul_self_sqrt hrt.le
  have hec : (Battery.fromParams p).eta_c = Real.sqrt p.eta_bat_roundtrip := rfl
  have hed : (Battery.fromParams p).eta_d = Real.sqrt p.eta_bat_roundtrip := rfl
  have h3' : E * ((Battery.fromParams p).eta_c * (Battery.fromParams p).eta_d)
      ≤ (Battery.fromParams p).p_discharge_max := by
    rw [hec, hed, hs]
    exact h3
  have hcycle := Battery.cycle (Battery.fromParams p) E hE
    (by rw [hec]; exact Real.sqrt_nonneg _)
    (by rw [hed]; exact Real.sqrt_pos.mpr hrt)
    hsoc h1 h2 h3'
  rw [hec, hed, hs] at hcycle
  exact ⟨rfl, rfl, by rw [hcycle.1]; ring, hcycle.2⟩

/-- The default configuration with round-trip efficiency 1 and the battery
empty, for instantiating the cycle theorem concretely. -/
noncomputable def sampleParamsR : SystemParameters ℝ :=
  mkSystemParameters 1 1 1 1 10 100 0 (some 50) HeatPumpType.LV
    ⟨20, 20, 10, 10⟩

/-- Witness for C9 at the concrete configuration and `E = 1`. -/
theorem C9_sqrt_roundtrip_cycle_witness :
    (Battery.fromParams sampleParamsR).eta_c
        = Real.sqrt sampleParamsR.eta_bat_roundtrip ∧
    (Battery.fromParams sampleParamsR).eta_d
        = Real.sqrt sampleParamsR.eta_bat_roundtrip ∧
    (((Battery.fromParams sampleParamsR).charge 1 1).1.discharge
        (1 * sampleParamsR.eta_bat_roundtrip) 1).2
      = sampleParamsR.eta_bat_roundtrip * 1 ∧
    (((Battery.fromParams sampleParamsR).charge 1 1).1.discharge
        (1 * sampleParamsR.eta_bat_roundtrip) 1).1.soc
      = (Battery.fromParams sampleParamsR).soc :=
  C9_sqrt_roundtrip_cycle sampleParamsR 1
    (by norm_num [sampleParamsR, mkSystemParameters])
    (by norm_num)
    (by norm_num [sampleParamsR, mkSystemParameters])
    (by norm_num [sampleParamsR, mkSystemParameters])
    (by norm_num [sampleParamsR, mkSystemParameters, Real.sqrt_one])
    (by norm_num [sampleParamsR, mkSystemParameters])

end Microgrid
